import Mathlib

/-!
Shallow embedding of the adaptive-learning-agent repository's core:
the domain model (src/models/schemas.py), the quiz evaluator
(src/tools/quiz_generator.py), the learning-plan builder (src/app.py)
and the profile store (src/tools/knowledge_manager.py).

Python floats are modelled as rationals (ℚ), Python ints as Int,
Python dicts as insertion-ordered association lists, timestamps as
opaque strings passed in by the caller, and the file system as an
association list from path to JSON value.
-/

namespace PLPGA

/-- Enum for module completion status (schemas.py `ModuleStatus`). -/
inductive ModuleStatus where
  | locked
  | active
  | completed
deriving DecidableEq, Repr

/-- Individual learning module (schemas.py `Module`). -/
structure Module where
  id : Int
  title : String
  status : ModuleStatus
  topics : List String
  estimated_hours : Int
  mastery_score : ℚ
deriving DecidableEq, Repr

instance : Inhabited Module := ⟨⟨0, "", ModuleStatus.locked, [], 4, 0⟩⟩

/-- Complete learning path structure (schemas.py `LearningPlan`);
`created` is an opaque timestamp. -/
structure LearningPlan where
  skill : String
  level : String
  modules : List Module
  created : Nat
deriving DecidableEq, Repr

/-- `LearningPlan.get_active_module`: first module whose status is active. -/
def LearningPlan.get_active_module (p : LearningPlan) : Option Module :=
  p.modules.find? (fun m => m.status == ModuleStatus.active)

/-- The loop body of `LearningPlan.complete_module`: walk the module list,
mark the first module with the matching id completed with the given score,
set the immediately following module (if any) to active, and stop
(the Python loop breaks after the first match). -/
def completeModules : List Module → Int → ℚ → List Module
  | [], _, _ => []
  | m :: rest, module_id, score =>
    if m.id = module_id then
      { m with status := ModuleStatus.completed, mastery_score := score } ::
        (match rest with
         | [] => []
         | next :: rest2 => { next with status := ModuleStatus.active } :: rest2)
    else
      m :: completeModules rest module_id score

/-- `LearningPlan.complete_module`: mark a module as completed and unlock
the next one. -/
def LearningPlan.complete_module (p : LearningPlan) (module_id : Int) (score : ℚ) :
    LearningPlan :=
  { p with modules := completeModules p.modules module_id score }

/-- A module as `complete_module` leaves the matched module: status
completed, mastery score overwritten. -/
def completedWith (m : Module) (s : ℚ) : Module :=
  { m with status := ModuleStatus.completed, mastery_score := s }

/-- A module as the unlock transition leaves the successor: status active. -/
def activated (m : Module) : Module :=
  { m with status := ModuleStatus.active }

/-- The unlock step applied to the tail after the matched module: the first
module of the tail (if any) becomes active, the rest is untouched. -/
def unlockNext : List Module → List Module
  | [] => []
  | next :: rest2 => activated next :: rest2

/-- Single quiz question (schemas.py `QuizQuestion`). -/
structure QuizQuestion where
  question : String
  options : List String
  correct_index : Int
  explanation : Option String
deriving DecidableEq, Repr

instance : Inhabited QuizQuestion := ⟨⟨"", [], 0, none⟩⟩

/-- Pydantic construction of a `QuizQuestion`: each field constraint
(`options`: min_items=2, max_items=4; `correct_index`: ge=0, lt=4) is
checked, and a violation is a ValidationError naming the field. -/
def QuizQuestion.construct (question : String) (options : List String)
    (correct_index : Int) (explanation : Option String) : Except String QuizQuestion :=
  if options.length < 2 then
    Except.error "options: ensure this value has at least 2 items"
  else if 4 < options.length then
    Except.error "options: ensure this value has at most 4 items"
  else if correct_index < 0 then
    Except.error "correct_index: ensure this value is greater than or equal to 0"
  else if ¬ correct_index < 4 then
    Except.error "correct_index: ensure this value is less than 4"
  else
    Except.ok ⟨question, options, correct_index, explanation⟩

/-- Structured quiz (schemas.py `Quiz`). -/
structure Quiz where
  module_id : Int
  topic : String
  difficulty : String
  questions : List QuizQuestion
deriving DecidableEq, Repr

/-- Pydantic validity of a `Quiz`: `questions` has min_items=3, max_items=10,
and every nested question passes its own field validation. -/
def Quiz.valid (q : Quiz) : Bool :=
  3 ≤ q.questions.length && q.questions.length ≤ 10 &&
    q.questions.all (fun qq =>
      (QuizQuestion.construct qq.question qq.options qq.correct_index qq.explanation).isOk)

/-- The correct-count both scorers accumulate: the number of positions at
which the submitted answer equals the question's `correct_index`. -/
def countCorrect (questions : List QuizQuestion) (answers : List Int) : Nat :=
  ((questions.zip answers).filter (fun qa => qa.2 == qa.1.correct_index)).length

/-- `Quiz.calculate_score`: percentage score, 0 on empty or mismatched input. -/
def Quiz.calculate_score (q : Quiz) (user_answers : List Int) : ℚ :=
  if user_answers.isEmpty || user_answers.length ≠ q.questions.length then 0
  else ((countCorrect q.questions user_answers : ℚ) / (q.questions.length : ℚ)) * 100

/-- One entry of the detailed `results` list built by
`QuizEvaluator.evaluate_answers`; the answer letters `chr(65 + i)` are kept
as their code points `65 + i`. -/
structure QuestionResult where
  question_num : Nat
  question : String
  user_answer : Int
  correct_answer : Int
  is_correct : Bool
  explanation : Option String
deriving DecidableEq, Repr

/-- The per-question loop of `QuizEvaluator.evaluate_answers` over
`zip(quiz.questions, user_answers)`, carrying the running index. -/
def questionResults : Nat → List QuizQuestion → List Int → List QuestionResult
  | _, [], _ => []
  | _, _ :: _, [] => []
  | idx, q :: qs, a :: rest =>
    { question_num := idx + 1
      question := q.question
      user_answer := 65 + a
      correct_answer := 65 + q.correct_index
      is_correct := a == q.correct_index
      explanation := q.explanation } :: questionResults (idx + 1) qs rest

/-- The feedback tier ladder of `QuizEvaluator.evaluate_answers`, evaluated
in descending order with inclusive lower bounds. -/
def feedbackFor (score : ℚ) : String :=
  if score ≥ 90 then "Excellent! You've mastered this topic."
  else if score ≥ 80 then "Great work! You have a strong understanding."
  else if score ≥ 70 then "Good job! You're on the right track."
  else if score ≥ 60 then "Fair performance. Review the material and try again."
  else "More study needed. Don't worry, practice makes perfect!"

/-- Return value of `QuizEvaluator.evaluate_answers`: either the error dict
`{"error": ..., "score": 0.0}` or the full result dict (the derived
`percentage` display string is presentation-layer formatting of `score`
and is not modelled). -/
inductive EvalResult where
  | mismatch (error : String) (score : ℚ)
  | result (score : ℚ) (correct : Nat) (total : Nat) (feedback : String)
      (results : List QuestionResult)
deriving DecidableEq, Repr

/-- The score field of either result shape. -/
def EvalResult.score : EvalResult → ℚ
  | .mismatch _ s => s
  | .result s _ _ _ _ => s

/-- `QuizEvaluator.evaluate_answers` (quiz_generator.py). -/
def QuizEvaluator.evaluate_answers (quiz : Quiz) (user_answers : List Int) : EvalResult :=
  if user_answers.length ≠ quiz.questions.length then
    EvalResult.mismatch "Number of answers doesn't match number of questions" 0
  else
    let correct_count := countCorrect quiz.questions user_answers
    let score : ℚ := ((correct_count : ℚ) / (quiz.questions.length : ℚ)) * 100
    EvalResult.result score correct_count quiz.questions.length (feedbackFor score)
      (questionResults 0 quiz.questions user_answers)

/-- The level-specific module title templates chosen by
`generate_learning_plan` (app.py): beginner and intermediate have their own
sets, and any other level falls into the `else` (expert) branch. -/
def module_titles (target_skill starting_level : String) : List String :=
  if starting_level = "beginner" then
    ["Foundations of " ++ target_skill,
     "Core Concepts in " ++ target_skill,
     "Practical Applications of " ++ target_skill]
  else if starting_level = "intermediate" then
    ["Advanced Concepts in " ++ target_skill,
     "Real-World " ++ target_skill ++ " Projects",
     "Mastering " ++ target_skill]
  else
    ["Expert-Level " ++ target_skill,
     "Cutting-Edge " ++ target_skill ++ " Research",
     target_skill ++ " Innovation & Leadership"]

/-- `generate_learning_plan` (app.py): one module per title, ids 1..,
first module active and the rest locked, hours 4 + 2*idx, three placeholder
topics each; `created` is the opaque timestamp `datetime.now()`. -/
def generate_learning_plan (target_skill starting_level : String) (created : Nat) :
    LearningPlan :=
  { skill := target_skill
    level := starting_level
    modules := (module_titles target_skill starting_level).enum.map (fun it =>
      { id := (it.1 : Int) + 1
        title := it.2
        status := if it.1 = 0 then ModuleStatus.active else ModuleStatus.locked
        topics := (List.range 3).map (fun i => "Topic " ++ toString (i + 1))
        estimated_hours := 4 + (it.1 : Int) * 2
        mastery_score := 0 })
    created := created }

/-- One completed-module record inside a skill entry of `UserProfile.skills`:
`{"title": ..., "score": ..., "completed_at": datetime.now().isoformat()}`. -/
structure ModuleRecord where
  title : String
  score : ℚ
  completed_at : String
deriving DecidableEq, Repr

/-- One skill entry of `UserProfile.skills`: `{"modules": [...], "avg_score": ...}`. -/
structure SkillData where
  modules : List ModuleRecord
  avg_score : ℚ
deriving DecidableEq, Repr

/-- User's learning profile (schemas.py `UserProfile`); the `skills` dict is
an insertion-ordered association list, timestamps are opaque strings. -/
structure UserProfile where
  user_id : String
  skills : List (String × SkillData)
  total_modules_completed : Int
  overall_avg_score : ℚ
  last_updated : String
deriving DecidableEq, Repr

/-- A fresh `UserProfile(user_id=...)` with pydantic defaults: no skills,
zero counters, `last_updated = datetime.now()`. -/
def UserProfile.new (user_id now : String) : UserProfile :=
  ⟨user_id, [], 0, 0, now⟩

/-- Python dict read `skills[skill]` on the association list. -/
def lookupSkill (skills : List (String × SkillData)) (skill : String) : Option SkillData :=
  (skills.find? (fun kv => kv.1 == skill)).map Prod.snd

/-- Python dict write `skills[skill] = d`: overwrite in place if the key
exists, else append at the end (Python dicts keep insertion order). -/
def setSkill : List (String × SkillData) → String → SkillData → List (String × SkillData)
  | [], skill, d => [(skill, d)]
  | kv :: rest, skill, d =>
    if kv.1 = skill then (skill, d) :: rest else kv :: setSkill rest skill d

/-- Arithmetic mean `sum(scores) / len(scores)`. -/
def listMean (scores : List ℚ) : ℚ := scores.sum / (scores.length : ℚ)

/-- Every individual module score across every skill, in dict order
(the `all_scores` list built by `update_skill_progress`). -/
def allScores (skills : List (String × SkillData)) : List ℚ :=
  (skills.map (fun kv => kv.2.modules.map (fun m => m.score))).flatten

/-- `UserProfile.update_skill_progress` (schemas.py): create the skill entry
if absent (empty list, avg 0), append the new record, recompute that skill's
average from its full list, bump the completion counter, refresh
`last_updated`, and recompute the overall average across all skills when the
collected score list is non-empty. `now` stands for `datetime.now()`. -/
def UserProfile.update_skill_progress (p : UserProfile) (skill module_title : String)
    (score : ℚ) (now : String) : UserProfile :=
  let skills0 :=
    if (lookupSkill p.skills skill).isNone then p.skills ++ [(skill, ⟨[], 0⟩)]
    else p.skills
  let data := (lookupSkill skills0 skill).getD ⟨[], 0⟩
  let newModules := data.modules ++ [⟨module_title, score, now⟩]
  let scores := newModules.map (fun m => m.score)
  let skills1 := setSkill skills0 skill ⟨newModules, listMean scores⟩
  let all_scores := allScores skills1
  { p with
    skills := skills1
    total_modules_completed := p.total_modules_completed + 1
    last_updated := now
    overall_avg_score :=
      if all_scores.isEmpty then p.overall_avg_score else listMean all_scores }

/-- JSON values as written by `json.dump(profile.model_dump(), f, default=str)`
and read back by `json.load` (knowledge_manager.py). -/
inductive Json where
  | null
  | str (s : String)
  | num (q : ℚ)
  | arr (items : List Json)
  | obj (fields : List (String × Json))

/-- Serialization of one completed-module record. -/
def encodeModuleRecord (m : ModuleRecord) : Json :=
  Json.obj [("title", Json.str m.title), ("score", Json.num m.score),
            ("completed_at", Json.str m.completed_at)]

/-- Serialization of one skill entry. -/
def encodeSkillData (d : SkillData) : Json :=
  Json.obj [("modules", Json.arr (d.modules.map encodeModuleRecord)),
            ("avg_score", Json.num d.avg_score)]

/-- `profile.model_dump()` as serialized to the profile file: every field of
the profile, with the timestamp rendered as a string (`default=str`). -/
def UserProfile.model_dump (p : UserProfile) : Json :=
  Json.obj [("user_id", Json.str p.user_id),
            ("skills", Json.obj (p.skills.map (fun kv => (kv.1, encodeSkillData kv.2)))),
            ("total_modules_completed", Json.num (p.total_modules_completed : ℚ)),
            ("overall_avg_score", Json.num p.overall_avg_score),
            ("last_updated", Json.str p.last_updated)]

/-- Dict field access during `UserProfile(**data)` validation. -/
def getField (fields : List (String × Json)) (k : String) : Option Json :=
  (fields.find? (fun kv => kv.1 == k)).map Prod.snd

/-- Parse one completed-module record back from JSON. -/
def decodeModuleRecord : Json → Option ModuleRecord
  | Json.obj f =>
    match getField f "title", getField f "score", getField f "completed_at" with
    | some (Json.str t), some (Json.num s), some (Json.str c) => some ⟨t, s, c⟩
    | _, _, _ => none
  | _ => none

/-- Parse a JSON array elementwise, failing if any element fails
(pydantic validates each list item). -/
def decodeList {α : Type} (dec : Json → Option α) : List Json → Option (List α)
  | [] => some []
  | j :: rest =>
    match dec j, decodeList dec rest with
    | some x, some xs => some (x :: xs)
    | _, _ => none

/-- Parse one skill entry back from JSON. -/
def decodeSkillData : Json → Option SkillData
  | Json.obj f =>
    match getField f "modules", getField f "avg_score" with
    | some (Json.arr ms), some (Json.num a) =>
      (decodeList decodeModuleRecord ms).map (fun mods => ⟨mods, a⟩)
    | _, _ => none
  | _ => none

/-- Parse the skills dict back entrywise, failing if any entry fails. -/
def decodeSkills : List (String × Json) → Option (List (String × SkillData))
  | [] => some []
  | kv :: rest =>
    match decodeSkillData kv.2, decodeSkills rest with
    | some d, some tail => some ((kv.1, d) :: tail)
    | _, _ => none

/-- Pydantic validation `UserProfile(**data)` of a loaded JSON object:
every field must be present with the right shape (an integer for
`total_modules_completed`), else a ValidationError (modelled as `none`). -/
def UserProfile.model_validate : Json → Option UserProfile
  | Json.obj f =>
    match getField f "user_id", getField f "skills",
        getField f "total_modules_completed", getField f "overall_avg_score",
        getField f "last_updated" with
    | some (Json.str uid), some (Json.obj sk), some (Json.num tot),
        some (Json.num overall), some (Json.str lu) =>
      if tot.den = 1 then
        (decodeSkills sk).map (fun skills => ⟨uid, skills, tot.num, overall, lu⟩)
      else none
    | _, _, _, _, _ => none
  | _ => none

/-- `KnowledgeProfileManager._get_profile_path`: the storage directory
(`data/user_profiles`) joined with the raw interpolation `f"{user_id}.json"`.
No sanitization of `user_id` happens anywhere. -/
def _get_profile_path (storage_path user_id : String) : String :=
  storage_path ++ "/" ++ user_id ++ ".json"

/-- The file system as a path-to-content map (association list). -/
def FileSystem := List (String × Json)

/-- Write (create or overwrite) the file at `path`. -/
def writeFile : List (String × Json) → String → Json → List (String × Json)
  | [], path, content => [(path, content)]
  | kv :: rest, path, content =>
    if kv.1 = path then (path, content) :: rest else kv :: writeFile rest path content

/-- Read the file at `path`, if it exists. -/
def readFile (fs : List (String × Json)) (path : String) : Option Json :=
  (fs.find? (fun kv => kv.1 == path)).map Prod.snd

/-- `KnowledgeProfileManager._save_profile`: dump the profile's fields as
JSON at the path derived from `profile.user_id`. -/
def _save_profile (fs : List (String × Json)) (storage_path : String)
    (profile : UserProfile) : List (String × Json) :=
  writeFile fs (_get_profile_path storage_path profile.user_id) profile.model_dump

/-- `KnowledgeProfileManager._load_profile`: if the profile file exists,
parse it with `UserProfile(**data)` (a malformed record is a ValidationError,
`none`); otherwise a fresh profile for `user_id`. -/
def _load_profile (fs : List (String × Json)) (storage_path user_id now : String) :
    Option UserProfile :=
  match readFile fs (_get_profile_path storage_path user_id) with
  | some content => UserProfile.model_validate content
  | none => some (UserProfile.new user_id now)

/-- Split a character list at `/`, accumulating the current segment. -/
def splitSlash : List Char → List Char → List String
  | [], acc => [String.mk acc.reverse]
  | c :: rest, acc =>
    if c = '/' then String.mk acc.reverse :: splitSlash rest []
    else splitSlash rest (c :: acc)

/-- The slash-separated segments of a path, empty segments dropped. -/
def pathSegments (p : String) : List String :=
  (splitSlash p.data []).filter (fun s => s ≠ "")

/-- POSIX-style resolution of a relative path's segments: `.` stays in
place, `..` pops the last directory. Models where a file at the given path
actually lands on disk. -/
def resolveSegments (segs : List String) : List String :=
  segs.foldl
    (fun acc s => if s = ".." then acc.dropLast else if s = "." then acc else acc ++ [s])
    []

/-- Whether a resolved path lies inside the directory `dir` (given resolved). -/
def insideDir (dir path : List String) : Bool :=
  dir.isPrefixOf path

/-- Number of modules of a plan whose status is `active`. -/
def activeCount (p : LearningPlan) : Nat :=
  p.modules.countP (fun m => m.status == ModuleStatus.active)

/-- Number of modules of a plan whose status is `completed`. -/
def completedCount (p : LearningPlan) : Nat :=
  p.modules.countP (fun m => m.status == ModuleStatus.completed)

/-- The statuses of a plan's modules, in order. -/
def statuses (p : LearningPlan) : List ModuleStatus :=
  p.modules.map (fun m => m.status)

/-- The ids of a plan's modules, in order. -/
def idsOf (p : LearningPlan) : List Int :=
  p.modules.map (fun m => m.id)

/-- The states a generated 3-module plan passes through under normal
progression: ids 1, 2, 3 and a status vector that is a completed prefix
followed by at most one active module and locked tail. -/
def ProgressInv (p : LearningPlan) : Prop :=
  idsOf p = [1, 2, 3] ∧
    (statuses p = [ModuleStatus.active, ModuleStatus.locked, ModuleStatus.locked] ∨
     statuses p = [ModuleStatus.completed, ModuleStatus.active, ModuleStatus.locked] ∨
     statuses p = [ModuleStatus.completed, ModuleStatus.completed, ModuleStatus.active] ∨
     statuses p = [ModuleStatus.completed, ModuleStatus.completed, ModuleStatus.completed])

/-- Normal progression: a sequence of `complete_module` calls each of which
targets the id of the currently active module. -/
inductive NormalTrace : LearningPlan → LearningPlan → Prop where
  | refl (p : LearningPlan) : NormalTrace p p
  | step (p q : LearningPlan) (m : Module) (s : ℚ) :
      p.get_active_module = some m →
      NormalTrace (p.complete_module m.id s) q →
      NormalTrace p q

/-- A concrete valid 3-question quiz (every correct answer is option B). -/
def exampleQuiz : Quiz :=
  ⟨1, "Python Functions", "beginner",
   [⟨"q1", ["a", "b", "c", "d"], 1, none⟩,
    ⟨"q2", ["a", "b", "c", "d"], 1, some "because"⟩,
    ⟨"q3", ["a", "b", "c", "d"], 1, none⟩]⟩

/-! ## Theorems -/

/-- The zip-and-filter correct count of the evaluator equals the number of
positions `i` at which the submitted answer equals that question's
`correct_index`. -/
theorem countCorrect_eq_filter_range (qs : List QuizQuestion) (a : List Int)
    (h : a.length = qs.length) :
    countCorrect qs a = ((List.range qs.length).filter (fun i =>
      a.getD i 0 == (qs.getD i default).correct_index)).length := by
  induction qs generalizing a with
  | nil => simp [countCorrect]
  | cons q qs ih =>
    cases a with
    | nil => simp at h
    | cons x a' =>
      have h' : a'.length = qs.length := by simpa using h
      have hrw : ((fun i => (x :: a').getD i 0 == ((q :: qs).getD i default).correct_index)
            ∘ Nat.succ)
          = fun i => a'.getD i 0 == (qs.getD i default).correct_index := by
        funext i
        simp
      rw [List.length_cons, List.range_succ_eq_map, List.filter_cons,
        List.filter_map Nat.succ, hrw]
      have hcc : countCorrect (q :: qs) (x :: a')
          = (if (x == q.correct_index) = true then 1 else 0) + countCorrect qs a' := by
        rw [countCorrect, countCorrect, List.zip_cons_cons, List.filter_cons]
        by_cases hx : (x == q.correct_index) = true
        · simp [hx, Nat.add_comm]
        · simp [hx]
      rw [hcc, ih a' h']
      by_cases hx : (x == q.correct_index) = true
      · simp [hx, Nat.add_comm]
      · simp [hx]

/-- C1: on matching input lengths, `evaluate_answers` returns the full result
with `score = 100 * correct_count / total_questions`, where the correct count
is the number of positions whose answer hits `correct_index`, and feedback is
chosen by inclusive descending thresholds; 90 gets the top tier, 89.999 the
next-lower one. -/
theorem evaluate_answers_score_and_feedback (quiz : Quiz) (a : List Int)
    (h : a.length = quiz.questions.length) :
    QuizEvaluator.evaluate_answers quiz a =
      EvalResult.result
        (100 * (countCorrect quiz.questions a : ℚ) / (quiz.questions.length : ℚ))
        (countCorrect quiz.questions a) quiz.questions.length
        (feedbackFor (100 * (countCorrect quiz.questions a : ℚ) / (quiz.questions.length : ℚ)))
        (questionResults 0 quiz.questions a)
    ∧ countCorrect quiz.questions a
        = ((List.range quiz.questions.length).filter (fun i =>
            a.getD i 0 == (quiz.questions.getD i default).correct_index)).length
    ∧ (∀ s : ℚ, 90 ≤ s → feedbackFor s = "Excellent! You've mastered this topic.")
    ∧ (∀ s : ℚ, 80 ≤ s → s < 90 → feedbackFor s = "Great work! You have a strong understanding.")
    ∧ (∀ s : ℚ, 70 ≤ s → s < 80 → feedbackFor s = "Good job! You're on the right track.")
    ∧ (∀ s : ℚ, 60 ≤ s → s < 70 →
        feedbackFor s = "Fair performance. Review the material and try again.")
    ∧ (∀ s : ℚ, s < 60 → feedbackFor s = "More study needed. Don't worry, practice makes perfect!")
    ∧ feedbackFor 90 = "Excellent! You've mastered this topic."
    ∧ feedbackFor (89999 / 1000) = "Great work! You have a strong understanding." := by
  refine ⟨?_, countCorrect_eq_filter_range quiz.questions a h, ?_, ?_, ?_, ?_, ?_, ?_, ?_⟩
  · have hne : ¬ a.length ≠ quiz.questions.length := by omega
    have hscore : ((countCorrect quiz.questions a : ℚ) / (quiz.questions.length : ℚ)) * 100
        = 100 * (countCorrect quiz.questions a : ℚ) / (quiz.questions.length : ℚ) := by
      ring
    simp only [QuizEvaluator.evaluate_answers, if_neg hne, hscore]
  · intro s hs
    unfold feedbackFor
    rw [if_pos hs]
  · intro s h80 h90
    unfold feedbackFor
    rw [if_neg (not_le.mpr h90), if_pos h80]
  · intro s h70 h80
    unfold feedbackFor
    rw [if_neg (not_le.mpr (lt_of_lt_of_le h80 (by norm_num))),
      if_neg (not_le.mpr h80), if_pos h70]
  · intro s h60 h70
    unfold feedbackFor
    rw [if_neg (not_le.mpr (lt_of_lt_of_le h70 (by norm_num))),
      if_neg (not_le.mpr (lt_of_lt_of_le h70 (by norm_num))), if_neg (not_le.mpr h70),
      if_pos h60]
  · intro s h60
    unfold feedbackFor
    rw [if_neg (not_le.mpr (lt_of_lt_of_le h60 (by norm_num))),
      if_neg (not_le.mpr (lt_of_lt_of_le h60 (by norm_num))),
      if_neg (not_le.mpr (lt_of_lt_of_le h60 (by norm_num))), if_neg (not_le.mpr h60)]
  · unfold feedbackFor
    norm_num
  · unfold feedbackFor
    norm_num

/-- C1 witness: the 3-question example quiz with answers `[1, 0, 1]` scores
`200/3` (two of three correct) and that score falls in the fair tier. -/
theorem evaluate_answers_score_and_feedback_witness :
    (QuizEvaluator.evaluate_answers exampleQuiz [1, 0, 1]).score = 200 / 3
    ∧ feedbackFor (200 / 3) = "Fair performance. Review the material and try again." := by
  have h := evaluate_answers_score_and_feedback exampleQuiz [1, 0, 1] rfl
  have hc : countCorrect exampleQuiz.questions [1, 0, 1] = 2 := rfl
  constructor
  · rw [h.1]
    show (100 : ℚ) * (countCorrect exampleQuiz.questions [1, 0, 1] : ℚ)
        / (exampleQuiz.questions.length : ℚ) = 200 / 3
    rw [hc]
    norm_num [exampleQuiz]
  · exact h.2.2.2.2.2.1 (200 / 3) (by norm_num) (by norm_num)

/-- C7: when the number of answers differs from the number of questions,
`evaluate_answers` returns the error result with the descriptive message and
score 0 (it raises nothing: the function is total). -/
theorem evaluate_answers_length_mismatch (quiz : Quiz) (a : List Int)
    (h : a.length ≠ quiz.questions.length) :
    QuizEvaluator.evaluate_answers quiz a =
      EvalResult.mismatch "Number of answers doesn't match number of questions" 0
    ∧ (QuizEvaluator.evaluate_answers quiz a).score = 0 := by
  constructor
  · simp only [QuizEvaluator.evaluate_answers, if_pos h]
  · simp only [QuizEvaluator.evaluate_answers, if_pos h, EvalResult.score]

/-- C7 witness: one answer against the 3-question example quiz yields the
error result with score 0. -/
theorem evaluate_answers_length_mismatch_witness :
    QuizEvaluator.evaluate_answers exampleQuiz [1] =
      EvalResult.mismatch "Number of answers doesn't match number of questions" 0
    ∧ (QuizEvaluator.evaluate_answers exampleQuiz [1]).score = 0 :=
  evaluate_answers_length_mismatch exampleQuiz [1] (by decide)

/-- C3 counterexample: a QuizQuestion with only 2 options and
`correct_index = 3` is accepted by construction, although index 3 is not a
valid position of the 2-element options list — the claim that it "must also
fail" is false of the code. -/
theorem quizQuestion_out_of_options_accepted :
    (QuizQuestion.construct "q" ["a", "b"] 3 none).isOk = true
    ∧ ¬ ((3 : Int) < ((["a", "b"] : List String).length : Int)) := by
  constructor
  · rfl
  · decide

/-- C3 amended: construction succeeds exactly when the options list has 2–4
items and 0 ≤ correct_index < 4; `correct_index` is never compared against
the number of options, so index 4 with 4 options fails while index 3 with
only 2 options succeeds. -/
theorem quizQuestion_construct_iff (question : String) (options : List String)
    (ci : Int) (explanation : Option String) :
    ((QuizQuestion.construct question options ci explanation).isOk = true
      ↔ 2 ≤ options.length ∧ options.length ≤ 4 ∧ 0 ≤ ci ∧ ci < 4)
    ∧ (QuizQuestion.construct "q" ["a", "b", "c", "d"] 4 none).isOk = false
    ∧ (QuizQuestion.construct "q" ["a", "b"] 3 none).isOk = true := by
  refine ⟨?_, rfl, rfl⟩
  unfold QuizQuestion.construct
  split_ifs with h1 h2 h3 h4 <;> simp [Except.isOk, Except.toBool] <;> omega

/-- C6: for every skill and level, the generated plan has exactly 3 modules,
the first active and the other two locked, hours [4, 6, 8] in order, exactly
the 3 placeholder topics per module, ids 1, 2, 3, and titles drawn from the
beginner set for level "beginner", the intermediate set for "intermediate",
and the expert set for any other level. -/
theorem generate_learning_plan_spec (skill level : String) (created : Nat) :
    (generate_learning_plan skill level created).modules.length = 3
    ∧ statuses (generate_learning_plan skill level created)
        = [ModuleStatus.active, ModuleStatus.locked, ModuleStatus.locked]
    ∧ (generate_learning_plan skill level created).modules.map (fun m => m.estimated_hours)
        = [4, 6, 8]
    ∧ (generate_learning_plan skill level created).modules.map (fun m => m.topics)
        = [["Topic 1", "Topic 2", "Topic 3"], ["Topic 1", "Topic 2", "Topic 3"],
           ["Topic 1", "Topic 2", "Topic 3"]]
    ∧ idsOf (generate_learning_plan skill level created) = [1, 2, 3]
    ∧ (level = "beginner" →
        (generate_learning_plan skill level created).modules.map (fun m => m.title)
          = ["Foundations of " ++ skill, "Core Concepts in " ++ skill,
             "Practical Applications of " ++ skill])
    ∧ (level = "intermediate" →
        (generate_learning_plan skill level created).modules.map (fun m => m.title)
          = ["Advanced Concepts in " ++ skill, "Real-World " ++ skill ++ " Projects",
             "Mastering " ++ skill])
    ∧ (level ≠ "beginner" → level ≠ "intermediate" →
        (generate_learning_plan skill level created).modules.map (fun m => m.title)
          = ["Expert-Level " ++ skill, "Cutting-Edge " ++ skill ++ " Research",
             skill ++ " Innovation & Leadership"]) := by
  by_cases hb : level = "beginner"
  · subst hb
    exact ⟨rfl, rfl, rfl, rfl, rfl, fun _ => rfl,
      fun hi => absurd hi (by decide), fun hne _ => absurd rfl hne⟩
  · by_cases hi : level = "intermediate"
    · subst hi
      exact ⟨rfl, rfl, rfl, rfl, rfl, fun hb' => absurd hb' (by decide),
        fun _ => rfl, fun _ hne => absurd rfl hne⟩
    · have hmt : module_titles skill level =
          ["Expert-Level " ++ skill, "Cutting-Edge " ++ skill ++ " Research",
           skill ++ " Innovation & Leadership"] := by
        rw [module_titles, if_neg hb, if_neg hi]
      refine ⟨?_, ?_, ?_, ?_, ?_, fun hb' => absurd hb' hb, fun hi' => absurd hi' hi,
        fun _ _ => ?_⟩ <;>
        · simp only [generate_learning_plan, hmt, statuses, idsOf]
          rfl

/-- C9: `_get_profile_path` does no sanitization of the user id, so the
claim's safety property fails on the code: a user id containing `..`
produces a profile path that resolves outside the storage directory, and
two distinct user ids can resolve to the same file on disk. -/
theorem get_profile_path_unsafe :
    _get_profile_path "data/user_profiles" "../../etc/passwd"
      = "data/user_profiles/../../etc/passwd.json"
    ∧ resolveSegments (pathSegments (_get_profile_path "data/user_profiles" "../../etc/passwd"))
      = ["etc", "passwd.json"]
    ∧ insideDir (resolveSegments (pathSegments "data/user_profiles"))
        (resolveSegments (pathSegments (_get_profile_path "data/user_profiles" "../../etc/passwd")))
      = false
    ∧ ("a/../b" : String) ≠ "b"
    ∧ resolveSegments (pathSegments (_get_profile_path "data/user_profiles" "a/../b"))
      = resolveSegments (pathSegments (_get_profile_path "data/user_profiles" "b")) := by
  refine ⟨rfl, by decide, by decide, by decide, by decide⟩

/-- C10: a Quiz accepted by model validation has 3–10 questions, hence a
positive question count, so the score divisions in `Quiz.calculate_score`
and `QuizEvaluator.evaluate_answers` have a non-zero divisor: on any
matching answer list both computed scores satisfy
`score * total_questions = 100 * correct_count`. -/
theorem quiz_valid_score_divisor_nonzero (q : Quiz) (h : q.valid = true) :
    0 < q.questions.length
    ∧ (q.questions.length : ℚ) ≠ 0
    ∧ (∀ a : List Int, a.length = q.questions.length →
        q.calculate_score a * (q.questions.length : ℚ)
            = 100 * (countCorrect q.questions a : ℚ)
        ∧ (QuizEvaluator.evaluate_answers q a).score * (q.questions.length : ℚ)
            = 100 * (countCorrect q.questions a : ℚ)) := by
  have hlen : 3 ≤ q.questions.length := by
    simp only [Quiz.valid, Bool.and_eq_true, decide_eq_true_eq] at h
    exact h.1.1
  have hpos : 0 < q.questions.length := by omega
  have hne : (q.questions.length : ℚ) ≠ 0 := by
    exact_mod_cast Nat.pos_iff_ne_zero.mp hpos
  refine ⟨hpos, hne, fun a ha => ⟨?_, ?_⟩⟩
  · have hae : a.isEmpty = false := by
      cases a with
      | nil => simp at ha; omega
      | cons x t => rfl
    rw [Quiz.calculate_score]
    rw [if_neg (by simp [hae, ha])]
    field_simp
    ring
  · rw [QuizEvaluator.evaluate_answers, if_neg (by omega)]
    show (countCorrect q.questions a : ℚ) / (q.questions.length : ℚ) * 100
        * (q.questions.length : ℚ) = _
    field_simp
    ring

/-- C10 witness: the 3-question example quiz passes validation and both
score computations at answers `[1, 0, 1]` satisfy the division-free
equation. -/
theorem quiz_valid_score_divisor_nonzero_witness :
    0 < exampleQuiz.questions.length
    ∧ (exampleQuiz.questions.length : ℚ) ≠ 0
    ∧ exampleQuiz.calculate_score [1, 0, 1] * (exampleQuiz.questions.length : ℚ)
        = 100 * (countCorrect exampleQuiz.questions [1, 0, 1] : ℚ) := by
  have h := quiz_valid_score_divisor_nonzero exampleQuiz (by decide)
  exact ⟨h.1, h.2.1, (h.2.2 [1, 0, 1] rfl).1⟩

/-- When no module carries the requested id, the completion walk returns the
module list unchanged. -/
theorem completeModules_not_found (ms : List Module) (mid : Int) (s : ℚ)
    (h : ∀ m ∈ ms, m.id ≠ mid) : completeModules ms mid s = ms := by
  induction ms with
  | nil => rfl
  | cons m rest ih =>
    simp only [completeModules]
    rw [if_neg (h m (by simp)), ih (fun x hx => h x (by simp [hx]))]

/-- When `i` is the first index whose module carries the requested id, the
completion walk only touches positions `i` (completed, new score) and `i + 1`
(made active), leaving everything before and after unchanged. -/
theorem completeModules_found (ms : List Module) (mid : Int) (s : ℚ) (i : Nat)
    (hi : i < ms.length)
    (hmatch : (ms.getD i default).id = mid)
    (hfirst : ∀ j, j < i → (ms.getD j default).id ≠ mid) :
    completeModules ms mid s
      = ms.take i ++ [completedWith (ms.getD i default) s]
        ++ unlockNext (ms.drop (i + 1)) := by
  induction ms generalizing i with
  | nil => simp at hi
  | cons m rest ih =>
    cases i with
    | zero =>
      simp only [List.getD_cons_zero] at hmatch
      simp only [completeModules]
      rw [if_pos hmatch]
      cases rest with
      | nil => simp [completedWith, unlockNext]
      | cons r rs => simp [completedWith, unlockNext, activated]
    | succ i' =>
      have hm : m.id ≠ mid := by
        have h0 := hfirst 0 (Nat.succ_pos i')
        simpa using h0
      simp only [completeModules]
      rw [if_neg hm]
      rw [ih i' (by simpa using hi) (by simpa using hmatch)
        (fun j hj => by simpa using hfirst (j + 1) (Nat.succ_lt_succ hj))]
      simp

/-- C4: `complete_module` is a no-op (and raises nothing: it is total) when
no module matches the id; when position `i` holds the first module with the
matching id, that module becomes completed with the given mastery score, the
module immediately after it (if any) becomes active, and every other module —
in particular every module before the completed one — is unchanged, so at
most one successor is unlocked per call. -/
theorem complete_module_spec (p : LearningPlan) (module_id : Int) (score : ℚ) :
    ((∀ m ∈ p.modules, m.id ≠ module_id) → p.complete_module module_id score = p)
    ∧ (∀ i, i < p.modules.length → (p.modules.getD i default).id = module_id →
        (∀ j, j < i → (p.modules.getD j default).id ≠ module_id) →
        p.complete_module module_id score
          = { p with modules :=
              p.modules.take i ++ [completedWith (p.modules.getD i default) score]
              ++ unlockNext (p.modules.drop (i + 1)) }) := by
  constructor
  · intro h
    rw [LearningPlan.complete_module, completeModules_not_found p.modules module_id score h]
  · intro i hi hm hf
    rw [LearningPlan.complete_module, completeModules_found p.modules module_id score i hi hm hf]

/-- Looking up the key just written by the dict write yields the written
value. -/
theorem lookupSkill_setSkill_self (skills : List (String × SkillData)) (k : String)
    (d : SkillData) : lookupSkill (setSkill skills k d) k = some d := by
  induction skills with
  | nil => simp [setSkill, lookupSkill]
  | cons kv rest ih =>
    by_cases hk : kv.1 = k
    · simp [setSkill, hk, lookupSkill]
    · simp only [setSkill, if_neg hk]
      simpa [lookupSkill, hk] using ih

/-- Appending a new entry at the end when the key was absent makes lookup
find exactly that entry. -/
theorem lookupSkill_append_of_none (skills : List (String × SkillData)) (k : String)
    (d : SkillData) (h : lookupSkill skills k = none) :
    lookupSkill (skills ++ [(k, d)]) k = some d := by
  induction skills with
  | nil => simp [lookupSkill]
  | cons kv rest ih =>
    by_cases hk : kv.1 = k
    · rw [lookupSkill] at h
      simp [hk] at h
    · have h' : lookupSkill rest k = none := by
        rw [lookupSkill] at h ⊢
        simpa [hk] using h
      have hgoal := ih h'
      rw [List.cons_append, lookupSkill]
      rw [lookupSkill] at hgoal
      simpa [hk] using hgoal

/-- A value found by skill lookup is one of the dict's values. -/
theorem lookupSkill_mem_snd (skills : List (String × SkillData)) (k : String)
    (d : SkillData) (h : lookupSkill skills k = some d) : d ∈ skills.map Prod.snd := by
  rw [lookupSkill] at h
  cases hf : List.find? (fun kv => kv.1 == k) skills with
  | none => rw [hf] at h; simp at h
  | some kv =>
    rw [hf] at h
    simp only [Option.map_some', Option.some.injEq] at h
    cases h
    exact List.mem_map_of_mem Prod.snd (List.mem_of_find?_eq_some hf)

/-- Any score recorded under any skill of the dict occurs in the flattened
all-scores list. -/
theorem mem_allScores (skills : List (String × SkillData)) (d : SkillData)
    (hd : d ∈ skills.map Prod.snd) (x : ℚ) (hx : x ∈ d.modules.map (fun m => m.score)) :
    x ∈ allScores skills := by
  rw [allScores, List.mem_flatten]
  refine ⟨d.modules.map (fun m => m.score), ?_, hx⟩
  obtain ⟨kv, hkv, rfl⟩ := List.mem_map.mp hd
  exact List.mem_map.mpr ⟨kv, hkv, rfl⟩

/-- After writing a skill entry with a non-empty module list, the collected
all-scores list is non-empty. -/
theorem allScores_setSkill_ne_nil (skills0 : List (String × SkillData)) (k : String)
    (d : SkillData) (hd : d.modules ≠ []) :
    (allScores (setSkill skills0 k d)).isEmpty = false := by
  have hmem : ∃ x, x ∈ allScores (setSkill skills0 k d) := by
    cases hm : d.modules with
    | nil => exact absurd hm hd
    | cons rec0 more =>
      refine ⟨rec0.score, mem_allScores _ d
        (lookupSkill_mem_snd _ k d (lookupSkill_setSkill_self skills0 k d)) _ ?_⟩
      rw [hm]
      simp
  obtain ⟨x, hx⟩ := hmem
  cases hat : allScores (setSkill skills0 k d) with
  | nil => rw [hat] at hx; simp at hx
  | cons y ys => rfl

/-- Special shape of the previous fact: the written module list is a cons. -/
theorem allScores_setSkill_cons_isEmpty (skills0 : List (String × SkillData)) (k : String)
    (rec0 : ModuleRecord) (mods : List ModuleRecord) (a : ℚ) :
    (allScores (setSkill skills0 k ⟨rec0 :: mods, a⟩)).isEmpty = false :=
  allScores_setSkill_ne_nil skills0 k ⟨rec0 :: mods, a⟩ (by simp)

/-- Special shape of the previous fact: the written module list ends in an
appended record. -/
theorem allScores_setSkill_append_isEmpty (skills0 : List (String × SkillData)) (k : String)
    (rec0 : ModuleRecord) (mods : List ModuleRecord) (a : ℚ) :
    (allScores (setSkill skills0 k ⟨mods ++ [rec0], a⟩)).isEmpty = false :=
  allScores_setSkill_ne_nil skills0 k ⟨mods ++ [rec0], a⟩ (by simp)

/-- C2: `update_skill_progress` appends the `{title, score, completed_at}`
record to the named skill's module list (creating the entry with an empty
list and average 0 when absent), sets that skill's average to the mean of
all its recorded scores including the new one, increments the completion
counter by exactly 1, sets the overall average to the mean of every score
across every skill computed after the append, and refreshes `last_updated`. -/
theorem update_skill_progress_spec (p : UserProfile) (skill module_title : String)
    (score : ℚ) (now : String) :
    lookupSkill (p.update_skill_progress skill module_title score now).skills skill
        = some ⟨((lookupSkill p.skills skill).getD ⟨[], 0⟩).modules
                  ++ [{ title := module_title, score := score, completed_at := now }],
            listMean (List.map (fun m => m.score)
              (((lookupSkill p.skills skill).getD ⟨[], 0⟩).modules
                ++ [{ title := module_title, score := score, completed_at := now }]))⟩
    ∧ (p.update_skill_progress skill module_title score now).total_modules_completed
        = p.total_modules_completed + 1
    ∧ (p.update_skill_progress skill module_title score now).overall_avg_score
        = listMean (allScores (p.update_skill_progress skill module_title score now).skills)
    ∧ (p.update_skill_progress skill module_title score now).last_updated = now := by
  rcases hl : lookupSkill p.skills skill with _ | d
  · have h0 : lookupSkill (p.skills ++ [(skill, ⟨[], 0⟩)]) skill = some ⟨[], 0⟩ :=
      lookupSkill_append_of_none p.skills skill ⟨[], 0⟩ hl
    simp [UserProfile.update_skill_progress, hl, h0, lookupSkill_setSkill_self,
      allScores_setSkill_cons_isEmpty, allScores_setSkill_append_isEmpty]
  · simp [UserProfile.update_skill_progress, hl, lookupSkill_setSkill_self,
      allScores_setSkill_cons_isEmpty, allScores_setSkill_append_isEmpty]

/-- Counting module statuses can be read off the status list. -/
theorem countP_status_map (ms : List Module) (st : ModuleStatus) :
    ms.countP (fun m => m.status == st)
      = (ms.map (fun m => m.status)).countP (fun x => x == st) := by
  induction ms with
  | nil => rfl
  | cons m rest ih => simp [List.countP_cons, ih]

/-- Active-module count through the status list. -/
theorem activeCount_eq_statuses (p : LearningPlan) :
    activeCount p = (statuses p).countP (fun x => x == ModuleStatus.active) :=
  countP_status_map p.modules ModuleStatus.active

/-- Completed-module count through the status list. -/
theorem completedCount_eq_statuses (p : LearningPlan) :
    completedCount p = (statuses p).countP (fun x => x == ModuleStatus.completed) :=
  countP_status_map p.modules ModuleStatus.completed

/-- A freshly generated plan satisfies the progression invariant. -/
theorem progressInv_generate (skill level : String) (created : Nat) :
    ProgressInv (generate_learning_plan skill level created) := by
  by_cases hb : level = "beginner"
  · subst hb
    exact ⟨rfl, Or.inl rfl⟩
  · by_cases hi : level = "intermediate"
    · subst hi
      exact ⟨rfl, Or.inl rfl⟩
    · have hmt : module_titles skill level =
          ["Expert-Level " ++ skill, "Cutting-Edge " ++ skill ++ " Research",
           skill ++ " Innovation & Leadership"] := by
        rw [module_titles, if_neg hb, if_neg hi]
      refine ⟨?_, Or.inl ?_⟩ <;>
        · simp only [generate_learning_plan, hmt, idsOf, statuses]
          rfl

/-- Completing the currently active module preserves the progression
invariant. -/
theorem progressInv_step (p : LearningPlan) (m : Module) (s : ℚ)
    (hp : ProgressInv p) (hm : p.get_active_module = some m) :
    ProgressInv (p.complete_module m.id s) := by
  obtain ⟨hids, hstat⟩ := hp
  rw [idsOf] at hids
  rw [statuses] at hstat
  rw [LearningPlan.get_active_module] at hm
  rcases hmods : p.modules with _ | ⟨m1, _ | ⟨m2, _ | ⟨m3, rest⟩⟩⟩ <;>
    rw [hmods] at hids hstat hm
  · simp at hids
  · simp at hids
  · simp at hids
  · simp only [List.map_cons, List.cons.injEq, List.map_eq_nil_iff] at hids
    obtain ⟨h1, h2, h3, hrest⟩ := hids
    subst hrest
    rcases hstat with h | h | h | h <;>
      simp only [List.map_cons, List.map_nil, List.cons.injEq, and_true] at h <;>
      obtain ⟨hs1, hs2, hs3⟩ := h
    · rw [List.find?_cons_of_pos _ (by simp [hs1])] at hm
      have hm1 : m1 = m := by simpa using hm
      subst hm1
      refine ⟨?_, Or.inr (Or.inl ?_)⟩ <;>
        simp [idsOf, statuses, LearningPlan.complete_module, hmods, completeModules,
          h1, h2, h3, hs1, hs2, hs3]
    · rw [List.find?_cons_of_neg _ (by simp [hs1]),
        List.find?_cons_of_pos _ (by simp [hs2])] at hm
      have hm2 : m2 = m := by simpa using hm
      subst hm2
      refine ⟨?_, Or.inr (Or.inr (Or.inl ?_))⟩ <;>
        simp [idsOf, statuses, LearningPlan.complete_module, hmods, completeModules,
          h1, h2, h3, hs1, hs2, hs3]
    · rw [List.find?_cons_of_neg _ (by simp [hs1]),
        List.find?_cons_of_neg _ (by simp [hs2]),
        List.find?_cons_of_pos _ (by simp [hs3])] at hm
      have hm3 : m3 = m := by simpa using hm
      subst hm3
      refine ⟨?_, Or.inr (Or.inr (Or.inr ?_))⟩ <;>
        simp [idsOf, statuses, LearningPlan.complete_module, hmods, completeModules,
          h1, h2, h3, hs1, hs2, hs3]
    · rw [List.find?_cons_of_neg _ (by simp [hs1]),
        List.find?_cons_of_neg _ (by simp [hs2]),
        List.find?_cons_of_neg _ (by simp [hs3])] at hm
      simp at hm

/-- The progression invariant is preserved along any normal-progression
trace. -/
theorem progressInv_trace (p q : LearningPlan) (h : NormalTrace p q) :
    ProgressInv p → ProgressInv q := by
  induction h with
  | refl r => exact fun hp => hp
  | step r q' m s hm htr ih => exact fun hp => ih (progressInv_step r m s hp hm)

/-- The invariant pins down the active count in each reachable state. -/
theorem counts_of_progressInv (p : LearningPlan) (hp : ProgressInv p) :
    activeCount p ≤ 1
    ∧ (completedCount p < 3 → activeCount p = 1)
    ∧ (completedCount p = 3 → activeCount p = 0) := by
  obtain ⟨-, hstat⟩ := hp
  rcases hstat with h | h | h | h <;>
    rw [activeCount_eq_statuses, completedCount_eq_statuses, h] <;> decide

/-- C5: starting from any generated plan, along any sequence of
`complete_module` calls each targeting the currently active module's id, at
most one module is active after every call — exactly one while fewer than
all 3 modules are completed, and zero once all 3 are. -/
theorem normal_progression_single_active (skill level : String) (created : Nat)
    (q : LearningPlan)
    (h : NormalTrace (generate_learning_plan skill level created) q) :
    activeCount q ≤ 1
    ∧ (completedCount q < 3 → activeCount q = 1)
    ∧ (completedCount q = 3 → activeCount q = 0) :=
  counts_of_progressInv q
    (progressInv_trace (generate_learning_plan skill level created) q h
      (progressInv_generate skill level created))

/-- C5 witness: after one normal-progression step on a freshly generated
beginner plan (completing module 1 with score 95), exactly one module is
active and fewer than 3 are completed. -/
theorem normal_progression_single_active_witness :
    activeCount ((generate_learning_plan "Machine Learning" "beginner" 0).complete_module 1 95)
        ≤ 1
    ∧ (completedCount
          ((generate_learning_plan "Machine Learning" "beginner" 0).complete_module 1 95) < 3 →
        activeCount
          ((generate_learning_plan "Machine Learning" "beginner" 0).complete_module 1 95) = 1)
    ∧ (completedCount
          ((generate_learning_plan "Machine Learning" "beginner" 0).complete_module 1 95) = 3 →
        activeCount
          ((generate_learning_plan "Machine Learning" "beginner" 0).complete_module 1 95) = 0) :=
  normal_progression_single_active "Machine Learning" "beginner" 0
    ((generate_learning_plan "Machine Learning" "beginner" 0).complete_module 1 95)
    (NormalTrace.step _ _
      ⟨1, "Foundations of Machine Learning", ModuleStatus.active,
        ["Topic 1", "Topic 2", "Topic 3"], 4, 0⟩ 95 rfl (NormalTrace.refl _))

/-- Decoding inverts encoding for one completed-module record. -/
theorem decode_encode_moduleRecord (m : ModuleRecord) :
    decodeModuleRecord (encodeModuleRecord m) = some m := rfl

/-- Decoding inverts encoding for a list of module records. -/
theorem decodeList_encode (l : List ModuleRecord) :
    decodeList decodeModuleRecord (l.map encodeModuleRecord) = some l := by
  induction l with
  | nil => rfl
  | cons x xs ih => simp [decodeList, decode_encode_moduleRecord, ih]

/-- Decoding inverts encoding for one skill entry. -/
theorem decode_encode_skillData (d : SkillData) :
    decodeSkillData (encodeSkillData d) = some d := by
  simp [decodeSkillData, encodeSkillData, getField, decodeList_encode]

/-- Decoding inverts encoding for the whole skills dict. -/
theorem decodeSkills_encode (l : List (String × SkillData)) :
    decodeSkills (l.map (fun kv => (kv.1, encodeSkillData kv.2))) = some l := by
  induction l with
  | nil => rfl
  | cons kv rest ih => simp [decodeSkills, decode_encode_skillData, ih]

/-- Pydantic validation of a dumped profile returns the original profile. -/
theorem model_validate_model_dump (p : UserProfile) :
    UserProfile.model_validate p.model_dump = some p := by
  simp [UserProfile.model_validate, UserProfile.model_dump, getField,
    decodeSkills_encode, Rat.den_intCast, Rat.num_intCast]

/-- Reading the path just written yields the written content. -/
theorem readFile_writeFile (fs : List (String × Json)) (path : String) (content : Json) :
    readFile (writeFile fs path content) path = some content := by
  induction fs with
  | nil => simp [writeFile, readFile]
  | cons kv rest ih =>
    by_cases hk : kv.1 = path
    · simp [writeFile, hk, readFile]
    · simp only [writeFile, if_neg hk]
      simpa [readFile, hk] using ih

/-- C8: saving a profile and then loading under the same user id returns a
profile equal to the original in every field (timestamps are modelled as the
strings they serialize to, so the round-trip is exact). -/
theorem save_load_roundtrip (fs : List (String × Json)) (storage_path now : String)
    (p : UserProfile) :
    _load_profile (_save_profile fs storage_path p) storage_path p.user_id now = some p := by
  rw [_load_profile, _save_profile,
    readFile_writeFile fs (_get_profile_path storage_path p.user_id) p.model_dump]
  exact model_validate_model_dump p

end PLPGA
